import Mathlib

/-!
Verification development for the inventory-query backend.

Shallow embedding of the Semantic Search Orchestration Core:
the model registry (`src/ml/models/registry.py`), the inference service
(`src/ml/serving/inference_service.py`), the two LLM tools
(`src/llm/tools/product_search_tool.py`, `src/llm/tools/image_recognition_tool.py`)
and the search orchestrator (`src/services/search_service.py`).

Conventions of the embedding:
* Python `dict[str, V]` becomes an association list `Dict V` with
  Python-dict lookup/insert/erase semantics.
* `async` functions that may raise become functions returning
  `Except String A`; stateful methods additionally thread their object
  state explicitly, returning `Except String A × State`.
* External collaborators (the underlying model load/predict routines,
  the LLM provider, the Product Store query) are parameters: functions
  passed into the embedded operations, so theorems quantify over their
  behaviour.
* Opaque Python values that no claim inspects numerically are abstracted:
  model classes become opaque `Nat` identifiers, the decimal `unit_cost`
  becomes integer cents, a float confidence becomes `Option Nat`
  (basis points); `None` confidence still reproduces the formatting
  failure path of the image tool.
-/

/-- Association list with string keys, embedding Python `dict[str, V]`. -/
abbrev Dict (α : Type) := List (String × α)

/-- Python `d.get(k)` / `k in d`. -/
def Dict.get? {α : Type} : Dict α → String → Option α
  | [], _ => none
  | (k', v) :: rest, k => if k' = k then some v else Dict.get? rest k

/-- Python `d.pop(k)` / `del d[k]` (key assumed present by callers that guard). -/
def Dict.erase {α : Type} (d : Dict α) (k : String) : Dict α :=
  d.filter (fun p => !(p.1 == k))

/-- Python `d[k] = v`. Position of a replaced key is irrelevant to every claim. -/
def Dict.insert {α : Type} (d : Dict α) (k : String) (v : α) : Dict α :=
  Dict.erase d k ++ [(k, v)]

theorem Dict.get?_erase {α : Type} (d : Dict α) (k k' : String) :
    Dict.get? (Dict.erase d k) k' = if k' = k then none else Dict.get? d k' := by
  induction d with
  | nil => simp [Dict.erase, Dict.get?]
  | cons p rest ih =>
    rcases p with ⟨a, v⟩
    by_cases hak : a = k
    · have h1 : Dict.erase ((a, v) :: rest) k = Dict.erase rest k := by
        simp [Dict.erase, hak]
      rw [h1, ih]
      by_cases hk : k' = k
      · simp [hk]
      · have hak' : ¬ a = k' := fun h => hk (h.symm.trans hak)
        simp [hk, Dict.get?, hak']
    · have h1 : Dict.erase ((a, v) :: rest) k = (a, v) :: Dict.erase rest k := by
        simp [Dict.erase, hak]
      rw [h1]
      by_cases hak' : a = k'
      · have hk : ¬ k' = k := fun h => hak (hak'.trans h)
        simp [Dict.get?, hak', hk]
      · simp [Dict.get?, hak', ih]

theorem Dict.get?_append {α : Type} (d₁ d₂ : Dict α) (k : String) :
    Dict.get? (d₁ ++ d₂) k = ((Dict.get? d₁ k).map some).getD (Dict.get? d₂ k) := by
  induction d₁ with
  | nil => simp [Dict.get?]
  | cons p rest ih =>
    rcases p with ⟨a, v⟩
    by_cases hak : a = k
    · simp [Dict.get?, hak]
    · simp [Dict.get?, hak, ih]

theorem Dict.get?_insert {α : Type} (d : Dict α) (k k' : String) (v : α) :
    Dict.get? (Dict.insert d k v) k' = if k' = k then some v else Dict.get? d k' := by
  unfold Dict.insert
  rw [Dict.get?_append, Dict.get?_erase]
  by_cases hk : k' = k
  · simp [hk, Dict.get?]
  · have hk2 : ¬ k = k' := fun h => hk h.symm
    simp [hk]
    cases Dict.get? d k' <;> simp [Dict.get?, hk2]

/-! ## Model registry (`src/ml/models/registry.py`) -/

/-- Model lifecycle stages (`ModelStage`). -/
inductive ModelStage where
  | development
  | staging
  | production
  | archived
deriving DecidableEq

/-- An instantiated model (`BaseModel` instance). Its behaviour lives in the
world parameters of the operations; the `Nat` identifies the instance. -/
structure BaseModel where
  instId : Nat
deriving DecidableEq

/-- Metadata for a registered model (`ModelInfo`). The Python
`model_class : type[BaseModel]` is abstracted to an opaque class identifier;
instantiation plus `load(model_path)` is the world parameter of
`ModelRegistry.load`. -/
structure ModelInfo where
  name : String
  model_class : Nat
  model_path : String
  stage : ModelStage
  version : String
  metadata : Dict String
deriving DecidableEq

/-- Registry state: `_registry` and `_loaded_models` (`ModelRegistry.__init__`). -/
structure ModelRegistry where
  registry : Dict ModelInfo
  loaded_models : Dict BaseModel
deriving DecidableEq

/-- `ModelRegistry()` — empty registry. -/
def ModelRegistry.empty : ModelRegistry := ⟨[], []⟩

/-- `ModelRegistry.register` (defaults applied at call sites;
`metadata or {}` becomes `(metadata).getD []`). -/
def ModelRegistry.register (r : ModelRegistry) (name : String) (model_class : Nat)
    (model_path : String) (stage : ModelStage) (version : String)
    (metadata : Option (Dict String)) : ModelRegistry :=
  let info : ModelInfo :=
    ModelInfo.mk name model_class model_path stage version (metadata.getD [])
  { r with registry := Dict.insert r.registry name info }

/-- `ModelRegistry.unregister`. -/
def ModelRegistry.unregister (r : ModelRegistry) (name : String) : ModelRegistry :=
  let r1 := if (Dict.get? r.loaded_models name).isSome then
      { r with loaded_models := Dict.erase r.loaded_models name }
    else r
  if (Dict.get? r1.registry name).isSome then
    { r1 with registry := Dict.erase r1.registry name }
  else r1

/-- `ModelRegistry.load`. The world parameter `w` embeds
`info.model_class()` followed by `await model_instance.load(info.model_path)`:
it either yields the loaded instance or raises. State is threaded even on
failure so that theorems can speak about mutation. -/
def ModelRegistry.load (w : ModelInfo → Except String BaseModel)
    (r : ModelRegistry) (name : String) : Except String BaseModel × ModelRegistry :=
  match Dict.get? r.registry name with
  | none => (.error ("Model \x27" ++ name ++ "\x27 not found in registry"), r)
  | some info =>
    match Dict.get? r.loaded_models name with
    | some m => (.ok m, r)
    | none =>
      match w info with
      | .error e => (.error e, r)
      | .ok m => (.ok m, { r with loaded_models := Dict.insert r.loaded_models name m })

/-- `ModelRegistry.unload`. -/
def ModelRegistry.unload (r : ModelRegistry) (name : String) : ModelRegistry :=
  if (Dict.get? r.loaded_models name).isSome then
    { r with loaded_models := Dict.erase r.loaded_models name }
  else r

/-- `ModelRegistry.reload` — `unload` then `load`. -/
def ModelRegistry.reload (w : ModelInfo → Except String BaseModel)
    (r : ModelRegistry) (name : String) : Except String BaseModel × ModelRegistry :=
  ModelRegistry.load w (r.unload name) name

/-- `ModelRegistry.get_info`. -/
def ModelRegistry.get_info (r : ModelRegistry) (name : String) : Option ModelInfo :=
  Dict.get? r.registry name

/-- `ModelRegistry.list_models`. -/
def ModelRegistry.list_models (r : ModelRegistry) (stage : Option ModelStage) :
    List ModelInfo :=
  match stage with
  | none => r.registry.map (fun p => p.2)
  | some s => (r.registry.map (fun p => p.2)).filter (fun m => m.stage == s)

/-- `ModelRegistry.is_loaded`. -/
def ModelRegistry.is_loaded (r : ModelRegistry) (name : String) : Bool :=
  (Dict.get? r.loaded_models name).isSome

/-- Registry invariant: every cached (loaded) name is registered. -/
def RegInv (r : ModelRegistry) : Prop :=
  ∀ k : String, (Dict.get? r.loaded_models k).isSome = true →
    (Dict.get? r.registry k).isSome = true

/-! ## Inference service (`src/ml/serving/inference_service.py`) -/

/-- `PredictionResult` dataclass. `prediction` is `Any` in Python and may be
`None` (a missing `"prediction"` key); confidence is abstracted to basis
points. -/
structure PredictionResult where
  model_name : String
  prediction : Option String
  confidence : Option Nat
  metadata : Option (Dict String)
deriving DecidableEq

/-- The raw dict a model's `predict` returns; `.get` of the three keys is
modelled by the optional fields. -/
structure RawPrediction where
  prediction : Option String
  confidence : Option Nat
  metadata : Option (Dict String)
deriving DecidableEq

/-- `InferenceService.predict`. World parameters: `w` is the registry's
instantiate-and-load routine, `predictFn` the model's `predict`, `pp` the
optional configured preprocessor. Data values are abstracted to strings. -/
def InferenceService.predict (w : ModelInfo → Except String BaseModel)
    (predictFn : BaseModel → String → Except String RawPrediction)
    (pp : Option (String → Except String String))
    (r : ModelRegistry) (model_name : String) (data : String) (preprocess : Bool) :
    Except String PredictionResult × ModelRegistry :=
  match ModelRegistry.load w r model_name with
  | (.error e, r1) => (.error e, r1)
  | (.ok model, r1) =>
    let inputE : Except String String :=
      if preprocess then
        match pp with
        | some f => f data
        | none => .ok data
      else .ok data
    match inputE with
    | .error e => (.error e, r1)
    | .ok input =>
      match predictFn model input with
      | .error e => (.error e, r1)
      | .ok raw =>
        (.ok (PredictionResult.mk model_name raw.prediction raw.confidence raw.metadata),
         r1)

/-! ## Product records and the product-search tool
(`src/llm/tools/product_search_tool.py`) -/

/-- The fields of `ProductStock` the core reads. The decimal `unit_cost`
is abstracted to integer cents. -/
structure ProductStock where
  product_name : String
  product_sku : Option String
  supplier_name : String
  quantity_available : Int
  stock_status : Int
  unit_cost_cents : Int
  warehouse_location : String
  is_active : Bool
deriving DecidableEq

/-- `ProductSearchTool._get_stock_status_text`: dict lookup with
default `"Unknown"`. -/
def get_stock_status_text (status : Int) : String :=
  if status = 0 then "Out of Stock"
  else if status = 1 then "In Stock"
  else if status = 2 then "Low Stock"
  else if status = 3 then "Overstock"
  else "Unknown"

/-- Renders cents as the Python `f"{x:.2f}"` rendering of the cost
(claims never inspect this text). -/
def formatMoney2 (cents : Int) : String :=
  toString (cents / 100) ++ "." ++
    (let r := (cents % 100).toNat
     (if r < 10 then "0" else "") ++ toString r)

/-- Python `p.product_sku or "N/A"`: `None` and `""` are both falsy. -/
def skuOrNA (sku : Option String) : String :=
  match sku with
  | none => "N/A"
  | some s => if s = "" then "N/A" else s

/-- One formatted result line of `ProductSearchTool._arun`. -/
def formatProductLine (p : ProductStock) : String :=
  "- " ++ p.product_name ++ " (SKU: " ++ skuOrNA p.product_sku ++ "): " ++
    toString p.quantity_available ++ " units available, " ++
    "Status: " ++ get_stock_status_text p.stock_status ++ ", " ++
    "Price: $" ++ formatMoney2 p.unit_cost_cents ++ ", " ++
    "Supplier: " ++ p.supplier_name ++ ", " ++
    "Location: " ++ p.warehouse_location

/-- Mutable state of a `ProductSearchTool` instance: whether
`product_service` is set, and the `last_results` slot. -/
structure ProductSearchTool where
    is_configured : Bool
    last_results : List ProductStock
deriving DecidableEq

/-- `ProductSearchTool._arun`. The world parameter `store` embeds
`product_service.search_by_name(name=term, limit=10)` and may raise; a raise
propagates (`.error`) because `_arun` has no exception handler. State is
threaded even on failure. -/
def ProductSearchTool.arun (store : String → Nat → Except String (List ProductStock))
    (t : ProductSearchTool) (search_term : String) :
    Except String String × ProductSearchTool :=
  if t.is_configured = false then
    (.ok "Error: Product service not configured", t)
  else
    match store search_term 10 with
    | .error e => (.error e, t)
    | .ok products =>
      let t1 := { t with last_results := products }
      if products.isEmpty then
        (.ok ("No products found matching \x27" ++ search_term ++ "\x27"), t1)
      else
        (.ok ("Found " ++ toString products.length ++ " products:\n" ++
          String.intercalate "\n" (products.map formatProductLine)), t1)

/-- `ProductSearchTool.get_last_results`. -/
def ProductSearchTool.get_last_results (t : ProductSearchTool) : List ProductStock :=
  t.last_results

/-! ## Image-recognition tool (`src/llm/tools/image_recognition_tool.py`) -/

/-- Python rendering of `result.prediction` inside an f-string
(`None` prints as `"None"`). -/
def pyStrOpt (o : Option String) : String :=
  match o with
  | none => "None"
  | some s => s

/-- `f"{confidence:.2%}"` on a basis-point confidence. -/
def formatPercent2 (bp : Nat) : String :=
  toString (bp / 100) ++ "." ++
    (let r := bp % 100
     (if r < 10 then "0" else "") ++ toString r) ++ "%"

/-- `ImageRecognitionTool._arun`. `configured` embeds
`inference_service is not None`; `predictSvc` embeds
`inference_service.predict("product_classifier", image_path, preprocess=False)`.
Everything after the unconfigured check runs inside `try`, so every raise —
including formatting a `None` confidence — is converted to an error string;
the function therefore returns plain text and never raises. -/
def ImageRecognitionTool.arun (predictSvc : String → Except String PredictionResult)
    (configured : Bool) (image_path : String) : String :=
  if configured = false then "Error: Inference service not configured"
  else
    let body : Except String String := do
      let result ← predictSvc image_path
      let conf ← match result.confidence with
        | none => Except.error "unsupported format string passed to NoneType.__format__"
        | some c => Except.ok c
      Except.ok ("Image Analysis Result:\n" ++
        "Detected Product: " ++ pyStrOpt result.prediction ++ "\n" ++
        "Confidence: " ++ formatPercent2 conf)
    match body with
    | .ok s => s
    | .error e => "Error analyzing image: " ++ e

/-! ## Python string primitives

Kernel-evaluable embeddings of the Python string methods the orchestrator
uses (`str.lower`, `str.replace(w, "")`, `str.strip`, substring tests); the
library versions rely on well-founded recursion and do not reduce inside
closed proofs. -/

/-- Boolean list-prefix test over characters. -/
def listIsPref : List Char → List Char → Bool
  | [], _ => true
  | _ :: _, [] => false
  | a :: as, b :: bs => a == b && listIsPref as bs

/-- Boolean list-infix test over characters. -/
def listIsInf (needle : List Char) : List Char → Bool
  | [] => listIsPref needle []
  | b :: bs => listIsPref needle (b :: bs) || listIsInf needle bs

/-- Python `s.lower()` (ASCII case folding, as the queries at issue use). -/
def pyLower (s : String) : String := (s.data.map Char.toLower).asString

/-- Python `s.strip()` on a character list. -/
def pyStripL (l : List Char) : List Char :=
  ((l.dropWhile Char.isWhitespace).reverse.dropWhile Char.isWhitespace).reverse

/-- Python `s.strip()`. -/
def pyStrip (s : String) : String := (pyStripL s.data).asString

/-- Left-to-right removal of every non-overlapping occurrence of `pat`
(nonempty), fuelled by the input length so it is structurally recursive. -/
def pyRemoveGo (pat : List Char) : Nat → List Char → List Char
  | _, [] => []
  | 0, s => s
  | fuel + 1, c :: rest =>
    if listIsPref pat (c :: rest) then
      pyRemoveGo pat fuel ((c :: rest).drop pat.length)
    else
      c :: pyRemoveGo pat fuel rest

/-- Python `s.replace(pat, "")`. -/
def pyRemoveAll (s pat : String) : String :=
  if pat.data.isEmpty then s
  else (pyRemoveGo pat.data s.data.length s.data).asString

/-- Case-insensitive substring test, embedding SQL `ilike %needle%`. -/
def strContainsCI (hay needle : String) : Bool :=
  listIsInf (pyLower needle).data (pyLower hay).data

/-- Case-sensitive substring test (used to state "the answer contains ..."). -/
def strContains (hay needle : String) : Bool :=
  listIsInf needle.data hay.data

/-! ## Search orchestrator (`src/services/search_service.py`) -/

/-- One requested tool invocation in an LLM response
(`tool_call["name"]`, `tool_call["args"]`, `tool_call["id"]`). -/
structure ToolCall where
  name : String
  args : Dict String
  id : String
deriving DecidableEq

/-- An LLM response: text content plus requested tool calls
(`response.content`, `response.tool_calls`; the `hasattr` test is the
emptiness test on the list). -/
structure LLMResponse where
  content : String
  tool_calls : List ToolCall
deriving DecidableEq

/-- Conversation messages as assembled by `_llm_search`. -/
inductive Msg where
  | system (content : String)
  | user (content : String)
  | assistant (response : LLMResponse)
  | tool (content : String) (tool_call_id : String)
deriving DecidableEq

/-- `SearchResult` dataclass. -/
structure SearchResult where
  answer : String
  products_found : List ProductStock
  query : String
deriving DecidableEq

/-- `SearchService.SYSTEM_PROMPT`. -/
def systemPrompt : String :=
  "You are a helpful inventory assistant. You help users find products and check stock availability.\n\nWhen a user asks about products or stock, use the product_search tool to find information in the database.\n\nAlways provide clear, concise answers about:\n- Whether the product exists\n- How many units are available\n- The product\x27s stock status (In Stock, Low Stock, Out of Stock)\n- Price and supplier information when relevant\n\nIf no products are found, let the user know politely and suggest they try a different search term.\n\nRespond in the same language as the user\x27s query."

/-- The tool-dispatch loop of `_llm_search` (step 3 of the protocol):
executes each requested call in order, threading the product-search tool's
state; a raise inside a tool argument lookup or inside
`ProductSearchTool._arun` propagates and aborts the loop. Unknown tool names
yield the `"Error: Unknown tool"` placeholder. -/
def execToolCalls (store : String → Nat → Except String (List ProductStock))
    (predictSvc : String → Except String PredictionResult) (imageTool : Bool) :
    ProductSearchTool → List ToolCall → Except String (List Msg) × ProductSearchTool
  | t, [] => (.ok [], t)
  | t, tc :: rest =>
    let step : Except String String × ProductSearchTool :=
      if tc.name = "product_search" then
        match Dict.get? tc.args "search_term" with
        | none => (.error "KeyError: \x27search_term\x27", t)
        | some term => ProductSearchTool.arun store t term
      else if tc.name = "image_recognition" ∧ imageTool = true then
        match Dict.get? tc.args "image_path" with
        | none => (.error "KeyError: \x27image_path\x27", t)
        | some path => (.ok (ImageRecognitionTool.arun predictSvc true path), t)
      else
        (.ok "Error: Unknown tool", t)
    match step with
    | (.error e, t1) => (.error e, t1)
    | (.ok content, t1) =>
      match execToolCalls store predictSvc imageTool t1 rest with
      | (.error e, t2) => (.error e, t2)
      | (.ok msgs, t2) => (.ok (Msg.tool content tc.id :: msgs), t2)

/-- `SearchService._llm_search`. The world parameter `llm` embeds
`model_with_tools.ainvoke(messages)` and may raise. -/
def SearchService.llmSearch
    (llm : List Msg → Except String LLMResponse)
    (store : String → Nat → Except String (List ProductStock))
    (predictSvc : String → Except String PredictionResult)
    (imageTool : Bool) (t : ProductSearchTool) (query : String) :
    Except String SearchResult × ProductSearchTool :=
  match llm [Msg.system systemPrompt, Msg.user query] with
  | .error e => (.error e, t)
  | .ok response =>
    if response.tool_calls.isEmpty = false then
      match execToolCalls store predictSvc imageTool t response.tool_calls with
      | (.error e, t1) => (.error e, t1)
      | (.ok tool_messages, t1) =>
        match llm ([Msg.system systemPrompt, Msg.user query,
            Msg.assistant response] ++ tool_messages) with
        | .error e => (.error e, t1)
        | .ok final => (.ok (SearchResult.mk final.content t1.last_results query), t1)
    else
      (.ok (SearchResult.mk response.content t.last_results query), t)

/-- The fixed stop-word list of `_fallback_search`. -/
def stopWords : List String :=
  ["tienen", "hay", "existe", "buscar", "quiero", "stock", "?", "¿"]

/-- Keyword extraction of `_fallback_search`: strip, then per stop-word
lowercase-and-remove, then strip again. -/
def stripQuery (query : String) : String :=
  pyStrip (stopWords.foldl (fun acc w => pyRemoveAll (pyLower acc) w) (pyStrip query))

/-- `SearchService._fallback_search`. -/
def SearchService.fallbackSearch
    (store : String → Nat → Except String (List ProductStock))
    (query : String) : Except String SearchResult :=
  let search_term := stripQuery query
  if search_term = "" then
    .ok (SearchResult.mk "Por favor, especifica el producto que buscas." [] query)
  else
    match store search_term 10 with
    | .error e => .error e
    | .ok products =>
      if products.isEmpty then
        .ok (SearchResult.mk
          ("No encontré productos que coincidan con \x27" ++ search_term ++ "\x27.")
          products query)
      else
        .ok (SearchResult.mk
          ("Encontré " ++ toString products.length ++ " producto(s): " ++
            String.intercalate ", " ((products.take 5).map
              (fun p => p.product_name ++ " (" ++
                toString p.quantity_available ++ " disponibles)")))
          products query)

/-- `SearchService.semantic_search`. `llm = none` embeds
`self.llm_provider is None` (in which case `__init__` also left
`search_tool` unset, so the entry guard takes the fallback); otherwise the
LLM path runs and any raise inside it is caught here and answered by the
fallback. The product-search tool state is threaded even on failure, since
the tool object outlives the call. -/
def SearchService.semanticSearch
    (llm : Option (List Msg → Except String LLMResponse))
    (store : String → Nat → Except String (List ProductStock))
    (predictSvc : String → Except String PredictionResult)
    (imageTool : Bool) (t : ProductSearchTool) (query : String) :
    Except String SearchResult × ProductSearchTool :=
  match llm with
  | none => (SearchService.fallbackSearch store query, t)
  | some f =>
    match SearchService.llmSearch f store predictSvc imageTool t query with
    | (.ok res, t1) => (.ok res, t1)
    | (.error _, t1) => (SearchService.fallbackSearch store query, t1)

/-! ## Product Store model (`src/services/product_service.py`) -/

/-- `ProductService.search_by_name` over an in-memory table `rows`
(assumed already ordered by product name, the store's ordering):
case-insensitive substring match on the name, active rows only
(`active_only` defaults to true), first `limit` rows. -/
def ProductService.search_by_name (rows : List ProductStock) (name : String)
    (limit : Nat) : Except String (List ProductStock) :=
  .ok ((rows.filter
    (fun p => strContainsCI p.product_name name && p.is_active)).take limit)

/-! ## Cooperative interleaving of `ModelRegistry.load` (spec section 5)

`load` is an `async` method whose single suspension point is
`await model_instance.load(info.model_path)`: the registered-name check, the
cache check and the instantiation run atomically before it, and the cache
write plus return run atomically after it. Two tasks calling `load` on the
same registry interleave only at that boundary. The world parameter is fed
the current invocation count so distinct invocations produce distinct
instances, and `invocations` counts how often the underlying load routine
ran. -/

/-- Where one task is inside `ModelRegistry.load`. -/
inductive TaskPhase where
  | ready
  | awaiting (outcome : Except String BaseModel)
  | finished (result : Except String BaseModel)

/-- Shared registry, the invocation counter, and the two task positions. -/
structure ConcState where
  reg : ModelRegistry
  invocations : Nat
  task1 : TaskPhase
  task2 : TaskPhase

/-- One scheduling step of a single task running `load name`. -/
def stepLoad (w : Nat → ModelInfo → Except String BaseModel) (name : String)
    (reg : ModelRegistry) (inv : Nat) :
    TaskPhase → ModelRegistry × Nat × TaskPhase
  | TaskPhase.ready =>
    match Dict.get? reg.registry name with
    | none => (reg, inv,
        TaskPhase.finished (.error ("Model \x27" ++ name ++ "\x27 not found in registry")))
    | some info =>
      match Dict.get? reg.loaded_models name with
      | some m => (reg, inv, TaskPhase.finished (.ok m))
      | none => (reg, inv + 1, TaskPhase.awaiting (w inv info))
  | TaskPhase.awaiting (Except.error e) => (reg, inv, TaskPhase.finished (.error e))
  | TaskPhase.awaiting (Except.ok m) =>
    ({ reg with loaded_models := Dict.insert reg.loaded_models name m }, inv,
     TaskPhase.finished (.ok m))
  | TaskPhase.finished res => (reg, inv, TaskPhase.finished res)

/-- Run the task selected by the scheduler (`true` = task 1). -/
def schedStep (w : Nat → ModelInfo → Except String BaseModel) (name : String)
    (s : ConcState) (which : Bool) : ConcState :=
  if which then
    let r := stepLoad w name s.reg s.invocations s.task1
    { s with reg := r.1, invocations := r.2.1, task1 := r.2.2 }
  else
    let r := stepLoad w name s.reg s.invocations s.task2
    { s with reg := r.1, invocations := r.2.1, task2 := r.2.2 }

/-- Run a whole schedule. -/
def runSched (w : Nat → ModelInfo → Except String BaseModel) (name : String)
    (s : ConcState) (sched : List Bool) : ConcState :=
  sched.foldl (schedStep w name) s

/-! ## Concrete objects used by scenarios, witnesses and counterexamples -/

/-- Boolean success test for `Except`. -/
def Except.isOkB {ε α : Type} : Except ε α → Bool
  | .ok _ => true
  | .error _ => false

/-- The scenario product row: one active product with 12 units available. -/
def lecheRow : ProductStock :=
  ProductStock.mk "Leche Entera 1L" none "Lacteos SA" 12 1 2500 "A-01" true

/-- Product Store holding exactly the scenario row. -/
def lecheStore : String → Nat → Except String (List ProductStock) :=
  ProductService.search_by_name [lecheRow]

/-- A registered descriptor named `"m"`. -/
def infoM : ModelInfo := ModelInfo.mk "m" 0 "/models/m.bin" ModelStage.development "1.0.0" []

/-- A model instance. -/
def model0 : BaseModel := BaseModel.mk 0

/-- Registry with `"m"` registered and nothing loaded. -/
def regRegistered : ModelRegistry := ModelRegistry.mk [("m", infoM)] []

/-- Registry with `"m"` registered and loaded. -/
def regLoaded : ModelRegistry := ModelRegistry.mk [("m", infoM)] [("m", model0)]

/-- Load routine that always succeeds with `model0`. -/
def wOk : ModelInfo → Except String BaseModel := fun _ => .ok model0

/-- Instantiate-and-load routine handing out a fresh instance per invocation. -/
def wFresh : Nat → ModelInfo → Except String BaseModel := fun n _ => .ok (BaseModel.mk n)

/-- An inference delegate that raises (image model not loaded). -/
def predNone : String → Except String PredictionResult :=
  fun _ => .error "Model \x27product_classifier\x27 not found in registry"

/-- An LLM that requests one `product_search` call on its first turn and then
answers. -/
def llmInvokesTool : List Msg → Except String LLMResponse :=
  fun msgs =>
    if msgs.length ≤ 2 then
      .ok (LLMResponse.mk "" [ToolCall.mk "product_search" [("search_term", "leche")] "call_1"])
    else
      .ok (LLMResponse.mk "La leche está disponible." [])

/-- An LLM that answers directly, requesting no tools. -/
def llmNoTool : List Msg → Except String LLMResponse :=
  fun _ => .ok (LLMResponse.mk "¡Hola! ¿En qué puedo ayudarte?" [])

/-! ## Claims -/

/-- C8: the stock-status label mapping of the product-search tool is total
over the integers: 0 ↦ "Out of Stock", 1 ↦ "In Stock", 2 ↦ "Low Stock",
3 ↦ "Overstock", and every other integer ↦ "Unknown". -/
theorem stock_status_mapping_total (n : Int) :
    get_stock_status_text 0 = "Out of Stock" ∧
    get_stock_status_text 1 = "In Stock" ∧
    get_stock_status_text 2 = "Low Stock" ∧
    get_stock_status_text 3 = "Overstock" ∧
    (n = 0 ∨ n = 1 ∨ n = 2 ∨ n = 3 ∨ get_stock_status_text n = "Unknown") := by
  refine ⟨rfl, rfl, rfl, rfl, ?_⟩
  by_cases h0 : n = 0
  · exact Or.inl h0
  by_cases h1 : n = 1
  · exact Or.inr (Or.inl h1)
  by_cases h2 : n = 2
  · exact Or.inr (Or.inr (Or.inl h2))
  by_cases h3 : n = 3
  · exact Or.inr (Or.inr (Or.inr (Or.inl h3)))
  · exact Or.inr (Or.inr (Or.inr (Or.inr (by
      simp [get_stock_status_text, h0, h1, h2, h3]))))

/-- C1 counterexample: the product-search tool does not catch internal
failures — when the delegated Product Store query raises, `_arun` propagates
the exception to its caller instead of returning an error string. -/
theorem product_search_tool_propagates_store_error :
    (ProductSearchTool.arun (fun _ _ => .error "database connection lost")
      (ProductSearchTool.mk true []) "milk").1 =
      .error "database connection lost" := rfl

/-- C1 (amended): the image-recognition tool converts every internal failure
of the inference pipeline to a human-readable error string and never raises,
and both tools return an error string when their delegate service is
unconfigured; but the product-search tool propagates exceptions raised by the
delegated Product Store query to its caller. -/
theorem tool_error_handling_amended
    (store : String → Nat → Except String (List ProductStock))
    (predictSvc : String → Except String PredictionResult)
    (t : ProductSearchTool) (term path e e2 : String) :
    (t.is_configured = false →
      ProductSearchTool.arun store t term =
        (.ok "Error: Product service not configured", t)) ∧
    (t.is_configured = true → store term 10 = .error e →
      (ProductSearchTool.arun store t term).1 = .error e) ∧
    (predictSvc path = .error e2 →
      ImageRecognitionTool.arun predictSvc true path =
        "Error analyzing image: " ++ e2) ∧
    (ImageRecognitionTool.arun predictSvc false path =
      "Error: Inference service not configured") := by
  refine ⟨?_, ?_, ?_, ?_⟩
  · intro h; simp [ProductSearchTool.arun, h]
  · intro h hs; simp [ProductSearchTool.arun, h, hs]
  · intro h; simp [ImageRecognitionTool.arun, h, Bind.bind, Except.bind]
  · simp [ImageRecognitionTool.arun]

/-- C1 amended claim, exercised at concrete inputs: a raising store propagates
through the product-search tool, and a raising inference pipeline is converted
to text by the image-recognition tool. -/
theorem tool_error_handling_amended_witness :
    (ProductSearchTool.arun (fun _ _ => .error "boom")
      (ProductSearchTool.mk true []) "milk").1 = .error "boom" ∧
    ImageRecognitionTool.arun (fun _ => .error "model not loaded") true "img.png" =
      "Error analyzing image: model not loaded" :=
  ⟨(tool_error_handling_amended (fun _ _ => .error "boom")
      (fun _ => .error "model not loaded") (ProductSearchTool.mk true [])
      "milk" "img.png" "boom" "model not loaded").2.1 rfl rfl,
   (tool_error_handling_amended (fun _ _ => .error "boom")
      (fun _ => .error "model not loaded") (ProductSearchTool.mk true [])
      "milk" "img.png" "boom" "model not loaded").2.2.1 rfl⟩

/-- C3: `load(name)` behaviour. On every registry satisfying the
cached-names-are-registered invariant: a cached handle is returned as-is
with no state change and no dependence on the instantiate-and-load routine
(the conclusion holds for every `w`, so no load is invoked); an unregistered
name yields the not-found error; otherwise the registered descriptor is fed
to the factory/load routine, whose result is cached under the name and
returned. -/
theorem registry_load_spec (r : ModelRegistry) (w : ModelInfo → Except String BaseModel)
    (name : String) (hinv : RegInv r) :
    (∀ m, Dict.get? r.loaded_models name = some m →
      ModelRegistry.load w r name = (.ok m, r)) ∧
    (Dict.get? r.registry name = none →
      ModelRegistry.load w r name =
        (.error ("Model \x27" ++ name ++ "\x27 not found in registry"), r)) ∧
    (∀ info, Dict.get? r.registry name = some info →
      Dict.get? r.loaded_models name = none →
      (∀ e, w info = .error e → ModelRegistry.load w r name = (.error e, r)) ∧
      (∀ m, w info = .ok m → ModelRegistry.load w r name =
        (.ok m, { r with loaded_models := Dict.insert r.loaded_models name m }))) := by
  refine ⟨?_, ?_, ?_⟩
  · intro m hm
    have hsome : (Dict.get? r.registry name).isSome = true :=
      hinv name (by simp [hm])
    rcases Option.isSome_iff_exists.mp hsome with ⟨info, hinfo⟩
    simp [ModelRegistry.load, hinfo, hm]
  · intro hnone
    simp [ModelRegistry.load, hnone]
  · intro info hinfo hnm
    constructor
    · intro e he
      simp [ModelRegistry.load, hinfo, hnm, he]
    · intro m hm
      simp [ModelRegistry.load, hinfo, hnm, hm]

/-- C3, exercised at concrete inputs: on a registry with `"m"` registered and
cached, `load` is a pure cache hit. -/
theorem registry_load_spec_witness :
    ModelRegistry.load wOk regLoaded "m" = (.ok model0, regLoaded) := by
  have hinv : RegInv regLoaded := by
    intro k h
    by_cases hk : "m" = k
    · simp [regLoaded, Dict.get?, hk]
    · simp [regLoaded, Dict.get?, hk] at h
  exact (registry_load_spec regLoaded wOk "m" hinv).1 model0 (by
    simp [regLoaded, Dict.get?])

/-- C6: a failed `load` leaves the registry exactly as it was — for an
unregistered name (also when reached through `InferenceService.predict`) and
for a raising underlying load routine, the descriptor map and the cache are
unchanged and no handle is cached for the name. -/
theorem failed_load_leaves_state_unchanged
    (r : ModelRegistry) (w : ModelInfo → Except String BaseModel)
    (predictFn : BaseModel → String → Except String RawPrediction)
    (pp : Option (String → Except String String))
    (name data : String) (preprocess : Bool) (hinv : RegInv r) :
    (Dict.get? r.registry name = none →
      ModelRegistry.load w r name =
        (.error ("Model \x27" ++ name ++ "\x27 not found in registry"), r) ∧
      ModelRegistry.is_loaded r name = false) ∧
    (∀ info e, Dict.get? r.registry name = some info →
      Dict.get? r.loaded_models name = none → w info = .error e →
      ModelRegistry.load w r name = (.error e, r) ∧
      ModelRegistry.is_loaded r name = false) ∧
    (Dict.get? r.registry name = none →
      InferenceService.predict w predictFn pp r name data preprocess =
        (.error ("Model \x27" ++ name ++ "\x27 not found in registry"), r)) := by
  refine ⟨?_, ?_, ?_⟩
  · intro hnone
    refine ⟨by simp [ModelRegistry.load, hnone], ?_⟩
    by_cases hl : (Dict.get? r.loaded_models name).isSome = true
    · have := hinv name hl
      simp [hnone] at this
    · simpa [ModelRegistry.is_loaded] using hl
  · intro info e hinfo hnm he
    exact ⟨by simp [ModelRegistry.load, hinfo, hnm, he],
      by simp [ModelRegistry.is_loaded, hnm]⟩
  · intro hnone
    simp [InferenceService.predict, ModelRegistry.load, hnone]

/-- C6, exercised at concrete inputs: `predict` on the unregistered name
`"ghost_model"` fails with the not-found error and mutates nothing. -/
theorem failed_load_leaves_state_unchanged_witness :
    InferenceService.predict wOk (fun _ _ => .ok (RawPrediction.mk none none none))
      none regRegistered "ghost_model" "img.png" true =
      (.error ("Model \x27ghost_model\x27 not found in registry"), regRegistered) := by
  have hinv : RegInv regRegistered := by
    intro k hk
    simp [regRegistered, Dict.get?] at hk
  exact (failed_load_leaves_state_unchanged regRegistered wOk
    (fun _ _ => .ok (RawPrediction.mk none none none)) none "ghost_model" "img.png"
    true hinv).2.2 rfl

theorem unload_registry_eq (r : ModelRegistry) (name : String) :
    (ModelRegistry.unload r name).registry = r.registry := by
  unfold ModelRegistry.unload
  split <;> rfl

theorem unload_loaded_get? (r : ModelRegistry) (name k : String) :
    Dict.get? (ModelRegistry.unload r name).loaded_models k =
      if k = name then none else Dict.get? r.loaded_models k := by
  unfold ModelRegistry.unload
  by_cases h : (Dict.get? r.loaded_models name).isSome = true
  · simp [h, Dict.get?_erase]
  · simp [h]
    by_cases hk : k = name
    · subst hk
      cases hg : Dict.get? r.loaded_models k
      · simp
      · simp [hg] at h
    · simp [hk]

theorem unregister_loaded_get? (r : ModelRegistry) (name k : String) :
    Dict.get? (ModelRegistry.unregister r name).loaded_models k =
      if k = name then none else Dict.get? r.loaded_models k := by
  unfold ModelRegistry.unregister
  by_cases h1 : (Dict.get? r.loaded_models name).isSome = true
  · by_cases h2 : (Dict.get? r.registry name).isSome = true
    · simp [h1, h2, Dict.get?_erase]
    · simp [h1, h2, Dict.get?_erase]
  · by_cases h2 : (Dict.get? r.registry name).isSome = true
    · simp [h1, h2]
      by_cases hk : k = name
      · subst hk
        cases hg : Dict.get? r.loaded_models k
        · simp
        · simp [hg] at h1
      · simp [hk]
    · simp [h1, h2]
      by_cases hk : k = name
      · subst hk
        cases hg : Dict.get? r.loaded_models k
        · simp
        · simp [hg] at h1
      · simp [hk]

theorem unregister_registry_get? (r : ModelRegistry) (name k : String) :
    Dict.get? (ModelRegistry.unregister r name).registry k =
      if k = name then none else Dict.get? r.registry k := by
  unfold ModelRegistry.unregister
  by_cases h1 : (Dict.get? r.loaded_models name).isSome = true
  · by_cases h2 : (Dict.get? r.registry name).isSome = true
    · simp [h1, h2, Dict.get?_erase]
    · simp [h1, h2]
      by_cases hk : k = name
      · subst hk
        cases hg : Dict.get? r.registry k
        · simp
        · simp [hg] at h2
      · simp [hk]
  · by_cases h2 : (Dict.get? r.registry name).isSome = true
    · simp [h1, h2, Dict.get?_erase]
    · simp [h1, h2]
      by_cases hk : k = name
      · subst hk
        cases hg : Dict.get? r.registry k
        · simp
        · simp [hg] at h2
      · simp [hk]

theorem reginv_empty : RegInv ModelRegistry.empty := by
  intro k hk
  simp [ModelRegistry.empty, Dict.get?] at hk

theorem reginv_register (r : ModelRegistry) (name : String) (model_class : Nat)
    (model_path version : String) (stage : ModelStage)
    (metadata : Option (Dict String)) (h : RegInv r) :
    RegInv (ModelRegistry.register r name model_class model_path stage version metadata) := by
  intro k hk
  simp only [ModelRegistry.register] at hk ⊢
  rw [Dict.get?_insert]
  by_cases hkn : k = name
  · simp [hkn]
  · simp [hkn]
    exact h k hk

theorem reginv_unregister (r : ModelRegistry) (name : String) (h : RegInv r) :
    RegInv (ModelRegistry.unregister r name) := by
  intro k hk
  rw [unregister_loaded_get?] at hk
  rw [unregister_registry_get?]
  by_cases hkn : k = name
  · simp [hkn] at hk
  · simp [hkn] at hk ⊢
    exact h k hk

theorem reginv_unload (r : ModelRegistry) (name : String) (h : RegInv r) :
    RegInv (ModelRegistry.unload r name) := by
  intro k hk
  rw [unload_loaded_get?] at hk
  rw [show (ModelRegistry.unload r name).registry = r.registry from unload_registry_eq r name]
  by_cases hkn : k = name
  · simp [hkn] at hk
  · simp [hkn] at hk
    exact h k hk

theorem reginv_load (r : ModelRegistry) (w : ModelInfo → Except String BaseModel)
    (name : String) (h : RegInv r) : RegInv (ModelRegistry.load w r name).2 := by
  cases hreg : Dict.get? r.registry name with
  | none => simpa [ModelRegistry.load, hreg] using h
  | some info =>
    cases hc : Dict.get? r.loaded_models name with
    | some m => simpa [ModelRegistry.load, hreg, hc] using h
    | none =>
      cases hw : w info with
      | error e => simpa [ModelRegistry.load, hreg, hc, hw] using h
      | ok m =>
        intro k hk
        simp only [ModelRegistry.load, hreg, hc, hw] at hk ⊢
        rw [Dict.get?_insert] at hk
        by_cases hkn : k = name
        · simp [hkn, hreg]
        · simp [hkn] at hk
          exact h k hk

/-- C7: `unload(name)` removes only the cached handle — afterwards
`is_loaded` is false while `get_info` is unchanged (hence still non-absent
for a registered name) and the descriptor map is untouched; and a successful
`load` immediately after `register` leaves `is_loaded(name)` true. -/
theorem unload_frame_spec (r : ModelRegistry) (name : String)
    (w : ModelInfo → Except String BaseModel) (model_class : Nat)
    (model_path version : String) (stage : ModelStage)
    (metadata : Option (Dict String)) (m : BaseModel)
    (hreg : (ModelRegistry.get_info r name).isSome = true)
    (hw : w (ModelInfo.mk name model_class model_path stage version
      (metadata.getD [])) = .ok m) :
    ModelRegistry.is_loaded (ModelRegistry.unload r name) name = false ∧
    ModelRegistry.get_info (ModelRegistry.unload r name) name =
      ModelRegistry.get_info r name ∧
    (ModelRegistry.get_info (ModelRegistry.unload r name) name).isSome = true ∧
    (ModelRegistry.unload r name).registry = r.registry ∧
    ModelRegistry.is_loaded
      (ModelRegistry.load w
        (ModelRegistry.register r name model_class model_path stage version metadata)
        name).2 name = true := by
  have hru : (ModelRegistry.unload r name).registry = r.registry :=
    unload_registry_eq r name
  have hgi : ModelRegistry.get_info (ModelRegistry.unload r name) name =
      ModelRegistry.get_info r name := by
    simp [ModelRegistry.get_info, hru]
  refine ⟨?_, hgi, ?_, hru, ?_⟩
  · simp [ModelRegistry.is_loaded, unload_loaded_get?]
  · rw [hgi]; exact hreg
  · have hreg' : Dict.get?
        (ModelRegistry.register r name model_class model_path stage version
          metadata).registry name =
        some (ModelInfo.mk name model_class model_path stage version
          (metadata.getD [])) := by
      simp [ModelRegistry.register, Dict.get?_insert]
    cases hcache : Dict.get?
        (ModelRegistry.register r name model_class model_path stage version
          metadata).loaded_models name with
    | some m' =>
      simp [ModelRegistry.load, hreg', hcache, ModelRegistry.is_loaded]
    | none =>
      simp [ModelRegistry.load, hreg', hcache, hw, ModelRegistry.is_loaded,
        Dict.get?_insert]

/-- C7, exercised at concrete inputs: on the loaded registry, unloading
`"m"` leaves it registered but not loaded. -/
theorem unload_frame_spec_witness :
    ModelRegistry.is_loaded (ModelRegistry.unload regLoaded "m") "m" = false ∧
    (ModelRegistry.get_info (ModelRegistry.unload regLoaded "m") "m").isSome = true := by
  have h := unload_frame_spec regLoaded "m" wOk 0 "/models/m.bin" "1.0.0"
    ModelStage.development none model0 rfl rfl
  exact ⟨h.1, h.2.2.1⟩

/-- C10: loaded names are always registered — the invariant holds of the
empty registry and is preserved by `register`, `unregister`, `load`,
`unload` and `reload`, so a cached-but-unregistered handle is unreachable. -/
theorem registry_invariant_preserved (r : ModelRegistry)
    (w : ModelInfo → Except String BaseModel) (name : String) (model_class : Nat)
    (model_path version : String) (stage : ModelStage)
    (metadata : Option (Dict String)) (hinv : RegInv r) :
    RegInv ModelRegistry.empty ∧
    RegInv (ModelRegistry.register r name model_class model_path stage version metadata) ∧
    RegInv (ModelRegistry.unregister r name) ∧
    RegInv (ModelRegistry.load w r name).2 ∧
    RegInv (ModelRegistry.unload r name) ∧
    RegInv (ModelRegistry.reload w r name).2 :=
  ⟨reginv_empty,
   reginv_register r name model_class model_path version stage metadata hinv,
   reginv_unregister r name hinv,
   reginv_load r w name hinv,
   reginv_unload r name hinv,
   reginv_load (ModelRegistry.unload r name) w name (reginv_unload r name hinv)⟩

/-- C10, exercised at a concrete input: the invariant holds after loading
`"m"` into the registered-but-unloaded registry. -/
theorem registry_invariant_preserved_witness :
    RegInv (ModelRegistry.load wOk regRegistered "m").2 := by
  have hinv : RegInv regRegistered := by
    intro k hk
    simp [regRegistered, Dict.get?] at hk
  exact (registry_invariant_preserved regRegistered wOk "m" 0 "/models/m.bin"
    "1.0.0" ModelStage.development none hinv).2.2.2.1

/-- C2: `semantic_search` never raises for ordinary operational failures —
whenever the fallback path's direct store query succeeds, the call returns a
`SearchResult` whatever the LLM oracle does; and any exception inside the
LLM path is caught at the top level, the call answering with the fallback
search's result instead. -/
theorem semantic_search_never_raises
    (llm : Option (List Msg → Except String LLMResponse))
    (store : String → Nat → Except String (List ProductStock))
    (predictSvc : String → Except String PredictionResult)
    (imageTool : Bool) (t : ProductSearchTool) (query : String)
    (hfb : (SearchService.fallbackSearch store query).isOkB = true) :
    (SearchService.semanticSearch llm store predictSvc imageTool t query).1.isOkB = true ∧
    (∀ f e t1, llm = some f →
      SearchService.llmSearch f store predictSvc imageTool t query = (.error e, t1) →
      SearchService.semanticSearch llm store predictSvc imageTool t query =
        (SearchService.fallbackSearch store query, t1)) := by
  constructor
  · cases llm with
    | none => simpa [SearchService.semanticSearch] using hfb
    | some f =>
      rcases hls : SearchService.llmSearch f store predictSvc imageTool t query with ⟨res, t1⟩
      cases res with
      | ok r => simp [SearchService.semanticSearch, hls, Except.isOkB]
      | error e =>
        simp [SearchService.semanticSearch, hls]
        exact hfb
  · intro f e t1 hf heq
    subst hf
    simp [SearchService.semanticSearch, heq]

/-- C2, exercised at concrete inputs: with a raising LLM provider, the call
still returns a `SearchResult`. -/
theorem semantic_search_never_raises_witness :
    (SearchService.semanticSearch (some (fun _ => .error "LLM provider down"))
      lecheStore predNone false (ProductSearchTool.mk true [])
      "¿Tienen leche en stock?").1.isOkB = true :=
  (semantic_search_never_raises (some (fun _ => .error "LLM provider down"))
    lecheStore predNone false (ProductSearchTool.mk true [])
    "¿Tienen leche en stock?" rfl).1

theorem execToolCalls_no_product_search
    (store : String → Nat → Except String (List ProductStock))
    (predictSvc : String → Except String PredictionResult) (imageTool : Bool) :
    ∀ (tcs : List ToolCall) (t : ProductSearchTool),
      (∀ tc ∈ tcs, tc.name ≠ "product_search") →
      (execToolCalls store predictSvc imageTool t tcs).2 = t := by
  intro tcs
  induction tcs with
  | nil => intro t _; rfl
  | cons tc rest ih =>
    intro t h
    have hname : tc.name ≠ "product_search" := h tc (by simp)
    have hrest : ∀ x ∈ rest, x.name ≠ "product_search" := fun x hx => h x (by simp [hx])
    by_cases himg : tc.name = "image_recognition" ∧ imageTool = true
    · obtain ⟨hni, hb⟩ := himg
      subst hb
      cases hargs : Dict.get? tc.args "image_path" with
      | none => simp [execToolCalls, hname, hni, hargs]
      | some path =>
        rcases hrec : execToolCalls store predictSvc true t rest with ⟨res2, t2⟩
        have ht2 : t2 = t := by
          have hh := ih t hrest
          rw [hrec] at hh
          exact hh
        cases res2 with
        | ok msgs => simp [execToolCalls, hname, hni, hargs, hrec, ht2]
        | error e => simp [execToolCalls, hname, hni, hargs, hrec, ht2]
    · rcases hrec : execToolCalls store predictSvc imageTool t rest with ⟨res2, t2⟩
      have ht2 : t2 = t := by
        have hh := ih t hrest
        rw [hrec] at hh
        exact hh
      cases res2 with
      | ok msgs => simp [execToolCalls, hname, himg, hrec, ht2]
      | error e => simp [execToolCalls, hname, himg, hrec, ht2]

/-- C4 (amended): on the LLM path the returned `products_found` is exactly
the product-search tool's last-results slot at the end of the turn; the slot
is unchanged by a turn that invokes no `product_search` call, so
`products_found` is empty only if the slot was already empty when the call
began — the slot persists across `semantic_search` calls on the same service
instance rather than being reset per call. -/
theorem llm_search_grounding_amended
    (llm : List Msg → Except String LLMResponse)
    (store : String → Nat → Except String (List ProductStock))
    (predictSvc : String → Except String PredictionResult)
    (imageTool : Bool) (t : ProductSearchTool) (query : String)
    (res : SearchResult) (t1 : ProductSearchTool)
    (h : SearchService.llmSearch llm store predictSvc imageTool t query = (.ok res, t1)) :
    res.products_found = t1.last_results ∧
    (∀ resp, llm [Msg.system systemPrompt, Msg.user query] = .ok resp →
      (∀ tc ∈ resp.tool_calls, tc.name ≠ "product_search") →
      t1.last_results = t.last_results) := by
  unfold SearchService.llmSearch at h
  cases hc : llm [Msg.system systemPrompt, Msg.user query] with
  | error e => rw [hc] at h; simp at h
  | ok response =>
    rw [hc] at h
    dsimp only at h
    by_cases hne : response.tool_calls.isEmpty = false
    · rw [if_pos hne] at h
      rcases hexec : execToolCalls store predictSvc imageTool t response.tool_calls
        with ⟨er, t1'⟩
      rw [hexec] at h
      cases er with
      | error e => simp at h
      | ok msgs =>
        dsimp only at h
        cases hc2 : llm ([Msg.system systemPrompt, Msg.user query,
            Msg.assistant response] ++ msgs) with
        | error e => rw [hc2] at h; simp at h
        | ok final =>
          rw [hc2] at h
          simp only [Prod.mk.injEq, Except.ok.injEq] at h
          obtain ⟨hres, ht1⟩ := h
          constructor
          · rw [← hres, ← ht1]
          · intro resp hresp hall
            have hre : response = resp := Except.ok.inj hresp
            subst hre
            have hun := execToolCalls_no_product_search store predictSvc imageTool
              response.tool_calls t hall
            rw [hexec] at hun
            have hun2 : t1' = t := by simpa using hun
            rw [← ht1, hun2]
    · rw [if_neg hne] at h
      simp only [Prod.mk.injEq, Except.ok.injEq] at h
      obtain ⟨hres, ht1⟩ := h
      constructor
      · rw [← hres, ← ht1]
      · intro _ _ _
        rw [← ht1]

/-- C4 counterexample: the last-results slot persists across
`semantic_search` calls on the same service instance. A first call whose LLM
turn invokes `product_search` leaves the slot holding one product; a second
call whose LLM turn requests no tools at all still returns that stale product
list instead of an empty one. -/
theorem stale_last_results_counterexample :
    SearchService.semanticSearch (some llmInvokesTool) lecheStore predNone false
        (ProductSearchTool.mk true []) "busca leche" =
      (.ok (SearchResult.mk "La leche está disponible." [lecheRow] "busca leche"),
       ProductSearchTool.mk true [lecheRow]) ∧
    SearchService.semanticSearch (some llmNoTool) lecheStore predNone false
        (ProductSearchTool.mk true [lecheRow]) "hola" =
      (.ok (SearchResult.mk "¡Hola! ¿En qué puedo ayudarte?" [lecheRow] "hola"),
       ProductSearchTool.mk true [lecheRow]) ∧
    ([lecheRow] : List ProductStock) ≠ [] :=
  ⟨rfl, rfl, by simp⟩

/-- C4 amended claim, exercised at concrete inputs: a turn that requests no
tools returns exactly the (pre-existing) slot contents. -/
theorem llm_search_grounding_amended_witness :
    (SearchResult.mk "¡Hola! ¿En qué puedo ayudarte?" [lecheRow] "hola").products_found =
      (ProductSearchTool.mk true [lecheRow]).last_results ∧
    (ProductSearchTool.mk true [lecheRow]).last_results =
      (ProductSearchTool.mk true [lecheRow]).last_results := by
  have h := llm_search_grounding_amended llmNoTool lecheStore predNone false
    (ProductSearchTool.mk true [lecheRow]) "hola"
    (SearchResult.mk "¡Hola! ¿En qué puedo ayudarte?" [lecheRow] "hola")
    (ProductSearchTool.mk true [lecheRow]) rfl
  exact ⟨h.1, h.2 (LLMResponse.mk "¡Hola! ¿En qué puedo ayudarte?" []) rfl (by simp)⟩

/-- C5: the fallback search strips the stop-word/punctuation tokens from the
query; an empty stripped term yields the prompt-for-more-detail answer with
no products; otherwise the Product Store is queried with the term and limit
10, the answer listing up to 5 matches with their available quantities, or
the not-found message naming the term. Concretely, `"¿Tienen leche en
stock?"` against a store holding only `"Leche Entera 1L"` (quantity 12)
yields an answer containing `"Leche Entera 1L (12 disponibles)"` and exactly
one grounding product. -/
theorem fallback_search_spec
    (store : String → Nat → Except String (List ProductStock)) (query : String)
    (products : List ProductStock) :
    (stripQuery query = "" →
      SearchService.fallbackSearch store query =
        .ok (SearchResult.mk "Por favor, especifica el producto que buscas." [] query)) ∧
    (stripQuery query ≠ "" → store (stripQuery query) 10 = .ok products →
      products = [] →
      SearchService.fallbackSearch store query =
        .ok (SearchResult.mk
          ("No encontré productos que coincidan con \x27" ++ stripQuery query ++ "\x27.")
          [] query)) ∧
    (stripQuery query ≠ "" → store (stripQuery query) 10 = .ok products →
      products ≠ [] →
      SearchService.fallbackSearch store query =
        .ok (SearchResult.mk
          ("Encontré " ++ toString products.length ++ " producto(s): " ++
            String.intercalate ", " ((products.take 5).map
              (fun p => p.product_name ++ " (" ++
                toString p.quantity_available ++ " disponibles)")))
          products query)) ∧
    (SearchService.semanticSearch none lecheStore predNone false
        (ProductSearchTool.mk true []) "¿Tienen leche en stock?" =
      (.ok (SearchResult.mk "Encontré 1 producto(s): Leche Entera 1L (12 disponibles)"
        [lecheRow] "¿Tienen leche en stock?"), ProductSearchTool.mk true []) ∧
     strContains "Encontré 1 producto(s): Leche Entera 1L (12 disponibles)"
       "Leche Entera 1L (12 disponibles)" = true ∧
     ([lecheRow] : List ProductStock).length = 1) := by
  refine ⟨?_, ?_, ?_, rfl, by decide, rfl⟩
  · intro h
    simp [SearchService.fallbackSearch, h]
  · intro h hs hp
    subst hp
    simp [SearchService.fallbackSearch, h, hs]
  · intro h hs hne
    cases products with
    | nil => exact absurd rfl hne
    | cons p ps =>
      simp [SearchService.fallbackSearch, h, hs]

/-- C5, exercised at concrete inputs: a query with no matching product yields
the not-found message naming the stripped term and no products. -/
theorem fallback_search_spec_witness :
    SearchService.fallbackSearch lecheStore "xyz123" =
      .ok (SearchResult.mk
        ("No encontré productos que coincidan con \x27" ++ stripQuery "xyz123" ++ "\x27.")
        [] "xyz123") :=
  (fallback_search_spec lecheStore "xyz123" []).2.1 (by decide) rfl rfl

/-- C9 counterexample: two concurrent `load("m")` calls on a registry where
`"m"` is registered but never loaded, interleaved at the single await point
(`[task1 pre-await, task2 pre-await, task1 resume, task2 resume]`), invoke
the underlying load routine twice — not exactly once — and the two callers
receive distinct handles. -/
theorem concurrent_load_duplicate_invocations :
    (runSched wFresh "m" (ConcState.mk regRegistered 0 TaskPhase.ready TaskPhase.ready)
      [true, false, true, false]).invocations = 2 ∧
    (runSched wFresh "m" (ConcState.mk regRegistered 0 TaskPhase.ready TaskPhase.ready)
      [true, false, true, false]).task1 = TaskPhase.finished (.ok (BaseModel.mk 0)) ∧
    (runSched wFresh "m" (ConcState.mk regRegistered 0 TaskPhase.ready TaskPhase.ready)
      [true, false, true, false]).task2 = TaskPhase.finished (.ok (BaseModel.mk 1)) ∧
    BaseModel.mk 0 ≠ BaseModel.mk 1 ∧
    (2 : Nat) ≠ 1 :=
  ⟨rfl, rfl, rfl, by decide, by decide⟩

/-- C9 (amended): the reference `load` has no per-name deduplication, so
interleaved first-callers may each invoke the underlying load routine; only
when the calls are sequenced — the first completing before the second starts
— is the load routine invoked exactly once, the second caller receiving the
first's cached handle. -/
theorem load_dedup_amended
    (w : Nat → ModelInfo → Except String BaseModel) (name : String)
    (r : ModelRegistry) (info : ModelInfo) (m : BaseModel)
    (hreg : Dict.get? r.registry name = some info)
    (hnl : Dict.get? r.loaded_models name = none)
    (hw : w 0 info = .ok m) :
    (runSched w name (ConcState.mk r 0 TaskPhase.ready TaskPhase.ready)
      [true, true, false]).invocations = 1 ∧
    (runSched w name (ConcState.mk r 0 TaskPhase.ready TaskPhase.ready)
      [true, true, false]).task1 = TaskPhase.finished (.ok m) ∧
    (runSched w name (ConcState.mk r 0 TaskPhase.ready TaskPhase.ready)
      [true, true, false]).task2 = TaskPhase.finished (.ok m) := by
  refine ⟨?_, ?_, ?_⟩ <;>
    simp [runSched, schedStep, stepLoad, hreg, hnl, hw, Dict.get?_insert]

/-- C9 amended claim, exercised at concrete inputs: the sequential schedule
on the registered-but-unloaded registry performs exactly one invocation. -/
theorem load_dedup_amended_witness :
    (runSched wFresh "m" (ConcState.mk regRegistered 0 TaskPhase.ready TaskPhase.ready)
      [true, true, false]).invocations = 1 :=
  (load_dedup_amended wFresh "m" regRegistered infoM (BaseModel.mk 0) rfl rfl rfl).1
